import Mathlib

/-
Verification development for the astrometric orbit-fitting notebook
`01_simulated_astrometric_orbit_fit.ipynb`.

The notebook builds a single-star astrometric model from simulated Gaia
along-scan data, fits it, and then runs a bounded detection loop that
computes a periodogram, locates the strongest peak, tests its false-alarm
probability against a threshold, and on success adds a Keplerian component
at the peak period, refits, and switches the orbital parameter set.

The embedding below models the notebook's own code directly.  The bodies of
the library routines it calls (kepmodel's periodogram, fap, fit and Kepler
solver; pystrometry's unit conversion) are not part of the repository, so
those are modelled from the specification and marked as such in their doc
comments.  Data values (powers, frequencies, fap values, coefficients) are
rationals so that the loop logic is executable; quantities that are
irrational by construction (periods 2*pi/nu, orbital angles) live in the
real field.
-/

namespace Notebook

/-- One Keplerian component of the astrometric model: the orbital period that was
passed when the component was created and the list of currently active parameter
names (Thiele-Innes or Campbell, switched by `set_keplerian_param`). -/
structure Keplerian where
  period : ℝ
  paramNames : List String

/-- Shallow embedding of the kepmodel `AstroModel` state as used by the notebook:
epoch axis `t` (days), observed along-scan abscissa `w`, named linear basis
vectors `lin`, fitted linear coefficients `linPar`, the jitter value, the list
of free-parameter names, and the ordered collection of Keplerian components. -/
structure AstrometricModel where
  t : ℕ → ℚ
  w : ℕ → ℚ
  lin : List (String × (ℕ → ℚ))
  linPar : List ℚ
  jitter : ℚ
  fitParam : List String
  keplerians : List Keplerian

/-- `add_lin(basis, name)`: register one more named linear basis vector. -/
def add_lin (m : AstrometricModel) (basis : ℕ → ℚ) (name : String) : AstrometricModel :=
  { m with lin := m.lin ++ [(name, basis)] }

/-- The basis vector registered under `name` (zero function if absent). -/
def basisOf (m : AstrometricModel) (name : String) : ℕ → ℚ :=
  match m.lin.find? (fun pr => pr.1 == name) with
  | some pr => pr.2
  | none => fun _ => 0

/-- Explicit deep copy of the model (`copy.deepcopy(single_star_model)`): the
clone has value semantics and shares no mutable state with the original. -/
def deepcopy (m : AstrometricModel) : AstrometricModel :=
  { t := m.t, w := m.w, lin := m.lin, linPar := m.linPar, jitter := m.jitter,
    fitParam := m.fitParam, keplerians := m.keplerians }

/-- Modelled from the spec: `add_keplerian_from_period(P)` of kepmodel is not in
the repository source; per the spec it instantiates a new Keplerian component
seeded with the given period, eccentricity 0 and linearly fitted Thiele-Innes
coefficients, and appends it to the component collection. -/
def add_keplerian_from_period (m : AstrometricModel) (p : ℝ) : AstrometricModel :=
  { m with keplerians := m.keplerians ++ [{ period := p, paramNames := ["P", "Tp", "e", "A", "B", "F", "G"] }] }

/-- Replace the parameter-name list of the component at the given index. -/
def setParamNames : List Keplerian → ℕ → List String → List Keplerian
  | [], _, _ => []
  | kep :: ks, 0, ps => { kep with paramNames := ps } :: ks
  | kep :: ks, n + 1, ps => kep :: setParamNames ks n ps

/-- `set_keplerian_param(label, param)`: switch the labelled Keplerian
component's active parameter set (Thiele-Innes vs Campbell elements). -/
def set_keplerian_param (m : AstrometricModel) (label : ℕ) (params : List String) : AstrometricModel :=
  { m with keplerians := setParamNames m.keplerians label params }

/-- Modelled from the spec: kepmodel's `fit()` is not in the repository source;
per the spec it overwrites the values of the currently free parameters in place
(linear coefficients and jitter here), leaving the component collection's
structure unchanged.  The optimizer itself is abstracted as the oracle `f`. -/
def fitWith (f : AstrometricModel → List ℚ × ℚ) (m : AstrometricModel) : AstrometricModel :=
  { m with linPar := (f m).1, jitter := (f m).2 }

/-- Maximum of a list of rationals (`nu.max()`-style; junk value 0 on []). -/
def listMax : List ℚ → ℚ
  | [] => 0
  | [x] => x
  | x :: y :: ys => max x (listMax (y :: ys))

/-- `np.argmax`: index of the first occurrence of the maximum value. -/
def npArgmax : List ℚ → ℕ
  | [] => 0
  | [_] => 0
  | x :: y :: ys => if listMax (y :: ys) ≤ x then 0 else npArgmax (y :: ys) + 1

/-- The data produced by one `model.periodogram(nu0, dnu, nfreq)` call as the
notebook uses it: the angular-frequency grid `nu`, the power values, and the
period array `P = 2 * np.pi / nu`. -/
structure PeriodogramData where
  nu : List ℚ
  power : List ℚ
  P : List ℝ

/-- The false-alarm level the loop computes:
`model.fap(power[kmax], nu.max())` with `kmax = np.argmax(power)`. -/
def stepFap (fapFn : ℚ → ℚ → ℚ) (d : PeriodogramData) : ℚ :=
  fapFn (d.power.getD (npArgmax d.power) 0) (listMax d.nu)

/-- The Campbell parameter set the notebook switches to after a refit. -/
def campbellParams : List String := ["P", "Tp", "as", "e", "w", "i", "bigw"]

/-- Accepting a signal in iteration `k`: add a Keplerian at the peak period
`P[kmax]`, refit, and switch the new component's parameter set. -/
def acceptSignal (fitF : AstrometricModel → List ℚ × ℚ) (d : PeriodogramData) (k : ℕ)
    (m : AstrometricModel) : AstrometricModel :=
  set_keplerian_param (fitWith fitF (add_keplerian_from_period m (d.P.getD (npArgmax d.power) 0))) k campbellParams

/-- One iteration of the notebook's detection loop: if the peak's false-alarm
level exceeds the threshold the model is returned unchanged (the loop breaks);
otherwise the signal is accepted. -/
def detectionStep (thr : ℚ) (fapFn : ℚ → ℚ → ℚ) (fitF : AstrometricModel → List ℚ × ℚ)
    (d : PeriodogramData) (k : ℕ) (m : AstrometricModel) : AstrometricModel :=
  if thr < stepFap fapFn d then m else acceptSignal fitF d k m

/-- The notebook's detection loop `for kpla in range(niter)` with early break:
`fuel` is the remaining iteration budget, `k` the current iteration index, and
`oracle` supplies each iteration's periodogram output. -/
def runLoop (thr : ℚ) (fapFn : ℚ → ℚ → ℚ) (fitF : AstrometricModel → List ℚ × ℚ)
    (oracle : ℕ → PeriodogramData) : ℕ → ℕ → AstrometricModel → AstrometricModel
  | 0, _, m => m
  | fuel + 1, k, m =>
    if thr < stepFap fapFn (oracle k) then m
    else runLoop thr fapFn fitF oracle fuel (k + 1) (acceptSignal fitF (oracle k) k m)

/-- The iteration bound the notebook passes: `for kpla in range(1)`. -/
def notebookMaxCompanions : ℕ := 1

/-- Periodogram settings of the notebook: `Pmin = 5`. -/
def Pmin : ℚ := 5

/-- Periodogram settings of the notebook: `Pmax = 50000`. -/
def Pmax : ℚ := 50000

/-- Periodogram settings of the notebook: `nfreq = 10000`. -/
def nfreq : ℕ := 10000

/-- The notebook's detection threshold: `fap_threshold = 1e-3`. -/
def fap_threshold : ℚ := 1 / 1000

/-- A model with no regressors and no components, used as concrete test input. -/
def trivialModel : AstrometricModel :=
  { t := fun _ => 0, w := fun _ => 0, lin := [], linPar := [], jitter := 0,
    fitParam := [], keplerians := [] }

/-- A fit oracle that keeps the current parameter values. -/
def trivialFit : AstrometricModel → List ℚ × ℚ := fun m => (m.linPar, m.jitter)

/-- One-point periodogram output used as concrete test input. -/
def c1Data : PeriodogramData := { nu := [1], power := [1], P := [0] }

/-- The two model variables of the notebook cell: the fitted single-star model
and the working copy the detection loop mutates. -/
structure NotebookState where
  single_star_model : AstrometricModel
  model : AstrometricModel

/-- `model = copy.deepcopy(single_star_model)`: the program state right before
the detection loop. -/
def initState (s : AstrometricModel) : NotebookState :=
  { single_star_model := s, model := deepcopy s }

/-- Running the notebook's detection loop: only the variable `model` is
assigned to; `single_star_model` is never written. -/
def runNotebookLoop (thr : ℚ) (fapFn : ℚ → ℚ → ℚ) (fitF : AstrometricModel → List ℚ × ℚ)
    (oracle : ℕ → PeriodogramData) (st : NotebookState) : NotebookState :=
  { st with model := runLoop thr fapFn fitF oracle notebookMaxCompanions 0 st.model }

/-- `u.year.to(u.day)`: one Julian year is exactly 365.25 days. -/
def yearToDay : ℚ := 1461 / 4

/-- The single-star model as the notebook builds it: epoch axis in days
(`relative_time_day = relative_time_year * u.year.to(u.day)`), linear basis
vectors for position offsets, parallax and proper motion (the latter using the
epoch in YEARS), initial jitter 0.05, and the jitter added to the free set. -/
def mk_single_star_model (t_year spsi cpsi plxFactor wObs : ℕ → ℚ) : AstrometricModel :=
  let base : AstrometricModel :=
    { t := fun k => t_year k * yearToDay, w := wObs, lin := [], linPar := [],
      jitter := 1 / 20, fitParam := [], keplerians := [] }
  let m1 := add_lin base spsi ("ra")
  let m2 := add_lin m1 cpsi ("dec")
  let m3 := add_lin m2 plxFactor ("parallax")
  let m4 := add_lin m3 (fun k => t_year k * spsi k) ("mura")
  let m5 := add_lin m4 (fun k => t_year k * cpsi k) ("mudec")
  { m5 with fitParam := m5.fitParam ++ [("cov.jit.sig")] }

/-- One astronomical unit in metres. -/
def au_meter : ℚ := 149597870700

/-- Modelled from the spec: pystrometry's `convert_from_angular_to_linear` is
not in the repository source; per the spec it requires `parallax > 0` (else an
Invalid Parameter error) and otherwise returns the physical semi-major axis
`a0/parallax` (astronomical units) scaled to linear units (metres). -/
def convert_from_angular_to_linear (a0_mas parallax_mas : ℚ) : Except String ℚ :=
  if parallax_mas ≤ 0 then Except.error ("Invalid Parameter")
  else Except.ok (a0_mas / parallax_mas * au_meter)

/-- Modelled from the spec: kepmodel's `fap` is not in the repository source;
per the spec it applies an extreme-value correction over an effective number of
independent frequencies (a function of the searched bound ν_max) to a
single-trial tail probability `p1` of the peak power. -/
def fapEstimate (p1 : ℚ → ℚ) (neff : ℚ → ℕ) (peak_power numax : ℚ) : ℚ :=
  1 - (1 - p1 peak_power) ^ neff numax

/-- The trial-frequency grid the notebook passes to `model.periodogram`:
`nu0 = 2π/Pmax`, `dnu = (2π/Pmin - nu0)/(nfreq - 1)`, frequencies
`nu_k = nu0 + k·dnu` for `k = 0 .. nfreq-1`. -/
def isNotebookFrequencyGrid (nu : ℕ → ℝ) : Prop :=
  ∀ k, k < nfreq →
    nu k = 2 * Real.pi / (Pmax : ℝ)
      + k * ((2 * Real.pi / (Pmin : ℝ) - 2 * Real.pi / (Pmax : ℝ)) / ((nfreq : ℝ) - 1))

/-- Kepler's equation at eccentricity `e` and mean anomaly `M`:
`E` solves it when `E - e·sin E = M`. -/
def SolvesKepler (e M E : ℝ) : Prop := E - e * Real.sin E = M

/-- The Kepler-equation residual of `E` is within `tol`. -/
def KeplerResidualWithin (e M E tol : ℝ) : Prop := |E - e * Real.sin E - M| < tol

/-- The Thiele-Innes coefficients (A, B, F, G) corresponding to the Campbell
elements (a0, i, ω, Ω), per the formulas displayed in the notebook's model
description. -/
def isThieleInnesOf (A B F G a0 inc ω Ω : ℝ) : Prop :=
  A = a0 * (Real.cos ω * Real.cos Ω - Real.sin ω * Real.sin Ω * Real.cos inc)
  ∧ B = a0 * (Real.cos ω * Real.sin Ω + Real.sin ω * Real.cos Ω * Real.cos inc)
  ∧ F = -a0 * (Real.sin ω * Real.cos Ω + Real.cos ω * Real.sin Ω * Real.cos inc)
  ∧ G = -a0 * (Real.sin ω * Real.sin Ω - Real.cos ω * Real.cos Ω * Real.cos inc)

/-- Modelled from the spec: the Thiele-Innes → Campbell conversion performed by
`set_keplerian_param` is not in the repository source; per spec §4.3 it is the
closed form built from the auxiliary quantities u = (A+G)/2, v = (B−F)/2,
p = (A−G)/2, q = (B+F)/2: the two radii √(u²+v²) and √(p²+q²) determine a0 and
cos i, and the two atan2 angles arg(u,v) = ω+Ω and arg(p,q) = Ω−ω determine
ω and Ω. -/
def isCampbellOfThieleInnes (A B F G a0 inc ω Ω : ℝ) : Prop :=
  a0 = Real.sqrt (((A + G) / 2) ^ 2 + ((B - F) / 2) ^ 2)
        + Real.sqrt (((A - G) / 2) ^ 2 + ((B + F) / 2) ^ 2)
  ∧ inc = Real.arccos ((Real.sqrt (((A + G) / 2) ^ 2 + ((B - F) / 2) ^ 2)
        - Real.sqrt (((A - G) / 2) ^ 2 + ((B + F) / 2) ^ 2))
      / (Real.sqrt (((A + G) / 2) ^ 2 + ((B - F) / 2) ^ 2)
        + Real.sqrt (((A - G) / 2) ^ 2 + ((B + F) / 2) ^ 2)))
  ∧ ω = (Complex.arg ⟨(A + G) / 2, (B - F) / 2⟩ - Complex.arg ⟨(A - G) / 2, (B + F) / 2⟩) / 2
  ∧ Ω = (Complex.arg ⟨(A + G) / 2, (B - F) / 2⟩ + Complex.arg ⟨(A - G) / 2, (B + F) / 2⟩) / 2

theorem listMax_cons_cons (x y : ℚ) (ys : List ℚ) :
    listMax (x :: y :: ys) = max x (listMax (y :: ys)) := rfl

theorem getD_le_listMax : ∀ (l : List ℚ) (j : ℕ), j < l.length → l.getD j 0 ≤ listMax l
  | [], j, h => by simp at h
  | [x], 0, _ => by simp [listMax]
  | [_], j + 1, h => by simp at h
  | x :: y :: ys, 0, _ => by simp [listMax]
  | x :: y :: ys, j + 1, h => by
      have ih := getD_le_listMax (y :: ys) j (by simpa using h)
      have hle : listMax (y :: ys) ≤ listMax (x :: y :: ys) := by simp [listMax]
      simpa using le_trans ih hle

theorem npArgmax_lt_length : ∀ (l : List ℚ), l ≠ [] → npArgmax l < l.length
  | [], h => absurd rfl h
  | [_], _ => by simp [npArgmax]
  | x :: y :: ys, _ => by
      by_cases hc : listMax (y :: ys) ≤ x
      · simp [npArgmax, hc]
      · have ih := npArgmax_lt_length (y :: ys) (by simp)
        have ih1 : npArgmax (y :: ys) < ys.length + 1 := by simpa using ih
        simp only [npArgmax, if_neg hc, List.length_cons]
        omega

theorem getD_npArgmax_eq_listMax : ∀ (l : List ℚ), l ≠ [] → l.getD (npArgmax l) 0 = listMax l
  | [], h => absurd rfl h
  | [x], _ => by simp [npArgmax, listMax]
  | x :: y :: ys, _ => by
      by_cases hc : listMax (y :: ys) ≤ x
      · simp [npArgmax, listMax, hc, max_eq_left hc]
      · have ih := getD_npArgmax_eq_listMax (y :: ys) (by simp)
        push_neg at hc
        have hn : npArgmax (x :: y :: ys) = npArgmax (y :: ys) + 1 := by
          simp [npArgmax, not_le.mpr hc]
        rw [hn, List.getD_cons_succ, ih, listMax_cons_cons, max_eq_right hc.le]

theorem getD_lt_listMax_of_lt_npArgmax :
    ∀ (l : List ℚ) (j : ℕ), j < npArgmax l → l.getD j 0 < listMax l
  | [], j, h => by simp [npArgmax] at h
  | [x], j, h => by simp [npArgmax] at h
  | x :: y :: ys, j, h => by
      by_cases hc : listMax (y :: ys) ≤ x
      · simp [npArgmax, hc] at h
      · push_neg at hc
        cases j with
        | zero => simp [listMax, max_eq_right hc.le, hc]
        | succ j =>
            have hj : j < npArgmax (y :: ys) := by
              simpa [npArgmax, not_le.mpr hc] using h
            have ih := getD_lt_listMax_of_lt_npArgmax (y :: ys) j hj
            simpa [listMax, max_eq_right hc.le] using ih

theorem map_period_setParamNames : ∀ (ks : List Keplerian) (n : ℕ) (ps : List String),
    (setParamNames ks n ps).map Keplerian.period = ks.map Keplerian.period
  | [], _, _ => rfl
  | _ :: _, 0, _ => rfl
  | k :: ks, n + 1, ps => by simp [setParamNames, map_period_setParamNames ks n ps]

theorem length_setParamNames (ks : List Keplerian) (n : ℕ) (ps : List String) :
    (setParamNames ks n ps).length = ks.length := by
  have := map_period_setParamNames ks n ps
  have h1 := congrArg List.length this
  simpa using h1

theorem length_keplerians_acceptSignal (fitF : AstrometricModel → List ℚ × ℚ)
    (d : PeriodogramData) (k : ℕ) (m : AstrometricModel) :
    (acceptSignal fitF d k m).keplerians.length = m.keplerians.length + 1 := by
  simp [acceptSignal, set_keplerian_param, fitWith, add_keplerian_from_period,
    length_setParamNames]

theorem runLoop_keplerians_le (thr : ℚ) (fapFn : ℚ → ℚ → ℚ)
    (fitF : AstrometricModel → List ℚ × ℚ) (oracle : ℕ → PeriodogramData) :
    ∀ (fuel k : ℕ) (m : AstrometricModel),
      (runLoop thr fapFn fitF oracle fuel k m).keplerians.length ≤ m.keplerians.length + fuel
  | 0, _, m => le_refl _
  | fuel + 1, k, m => by
      by_cases hc : thr < stepFap fapFn (oracle k)
      · simp [runLoop, hc]
      · have ih := runLoop_keplerians_le thr fapFn fitF oracle fuel (k + 1)
          (acceptSignal fitF (oracle k) k m)
        simp only [runLoop, if_neg hc]
        calc (runLoop thr fapFn fitF oracle fuel (k + 1) (acceptSignal fitF (oracle k) k m)).keplerians.length
            ≤ (acceptSignal fitF (oracle k) k m).keplerians.length + fuel := ih
          _ = m.keplerians.length + 1 + fuel := by rw [length_keplerians_acceptSignal]
          _ = m.keplerians.length + (fuel + 1) := by omega

/-- C1 counterexample: at a false-alarm probability exactly equal to the
configured threshold, the detection loop does NOT stop: the FAP is ≥ the
threshold, yet the iteration adds a Keplerian component (the source breaks only
on `faplvl > fap_threshold`, a strict comparison). -/
theorem c1_counterexample :
    fap_threshold ≤ stepFap (fun _ _ => fap_threshold) c1Data
    ∧ (detectionStep fap_threshold (fun _ _ => fap_threshold) trivialFit c1Data 0 trivialModel).keplerians.length
        = trivialModel.keplerians.length + 1 := by
  constructor
  · exact le_of_eq rfl
  · have hnot : ¬ fap_threshold < stepFap (fun _ _ => fap_threshold) c1Data := by
      simp [stepFap]
    simp [detectionStep, hnot, length_keplerians_acceptSignal]

/-- C1 (amended): in every detection-loop iteration, if the best peak's
false-alarm probability is less than OR EQUAL to the threshold the loop adds a
Keplerian component and refits, and it stops without adding a component exactly
when the FAP is strictly greater than the threshold; in particular, at FAP
exactly equal to the threshold the loop accepts the signal. -/
theorem c1_amended_stop_iff_fap_above_threshold :
    ∀ (thr : ℚ) (fapFn : ℚ → ℚ → ℚ) (fitF : AstrometricModel → List ℚ × ℚ)
      (d : PeriodogramData) (k : ℕ) (m : AstrometricModel),
      (stepFap fapFn d ≤ thr →
        (detectionStep thr fapFn fitF d k m).keplerians.length = m.keplerians.length + 1)
      ∧ (thr < stepFap fapFn d → detectionStep thr fapFn fitF d k m = m) := by
  intro thr fapFn fitF d k m
  constructor
  · intro h
    have hnot : ¬ thr < stepFap fapFn d := not_lt.mpr h
    simp [detectionStep, hnot, length_keplerians_acceptSignal]
  · intro h
    simp [detectionStep, h]

/-- Witness for the amended C1 at a concrete input with FAP below threshold. -/
theorem c1_witness :
    stepFap (fun _ _ => 0) c1Data ≤ fap_threshold
    ∧ (detectionStep fap_threshold (fun _ _ => 0) trivialFit c1Data 0 trivialModel).keplerians.length
        = trivialModel.keplerians.length + 1 :=
  ⟨by norm_num [stepFap, fap_threshold],
   (c1_amended_stop_iff_fap_above_threshold fap_threshold (fun _ _ => 0) trivialFit c1Data 0
      trivialModel).1 (by norm_num [stepFap, fap_threshold])⟩

/-- C2: in every accepting iteration, the period passed to
`add_keplerian_from_period` is exactly 2π/ν at the first index of maximal
periodogram power, and the significance test is applied to the power at that
same index (together with `nu.max()` as the searched bound). -/
theorem c2_peak_period_and_significance :
    ∀ (thr : ℚ) (fapFn : ℚ → ℚ → ℚ) (fitF : AstrometricModel → List ℚ × ℚ)
      (d : PeriodogramData) (k : ℕ) (m : AstrometricModel),
      d.power ≠ [] →
      d.nu.length = d.power.length →
      (∀ j, j < d.nu.length → d.P.getD j 0 = 2 * Real.pi / (d.nu.getD j 0 : ℝ)) →
      stepFap fapFn d ≤ thr →
      ((detectionStep thr fapFn fitF d k m).keplerians.map Keplerian.period
          = m.keplerians.map Keplerian.period
            ++ [2 * Real.pi / (d.nu.getD (npArgmax d.power) 0 : ℝ)])
      ∧ d.power.getD (npArgmax d.power) 0 = listMax d.power
      ∧ (∀ j, j < npArgmax d.power → d.power.getD j 0 < listMax d.power)
      ∧ stepFap fapFn d = fapFn (d.power.getD (npArgmax d.power) 0) (listMax d.nu) := by
  intro thr fapFn fitF d k m hne hlen hgrid hfap
  have hk : npArgmax d.power < d.power.length := npArgmax_lt_length _ hne
  have hkn : npArgmax d.power < d.nu.length := by omega
  have hP := hgrid _ hkn
  refine ⟨?_, getD_npArgmax_eq_listMax _ hne,
    fun j hj => getD_lt_listMax_of_lt_npArgmax _ j hj, rfl⟩
  have hnot : ¬ thr < stepFap fapFn d := not_lt.mpr hfap
  simp only [List.getD_eq_getElem?_getD] at hP
  simp [detectionStep, hnot, acceptSignal, set_keplerian_param, fitWith,
    add_keplerian_from_period, map_period_setParamNames, hP]

/-- Witness for C2 at a one-frequency grid. -/
theorem c2_witness :
    ([(1 : ℚ)] ≠ ([] : List ℚ))
    ∧ (detectionStep 1 (fun _ _ => 0) trivialFit
          { nu := [1], power := [1], P := [2 * Real.pi] } 0 trivialModel).keplerians.map Keplerian.period
        = trivialModel.keplerians.map Keplerian.period
          ++ [2 * Real.pi / ((([1] : List ℚ).getD (npArgmax [(1 : ℚ)]) 0 : ℚ) : ℝ)] := by
  refine ⟨by simp, ?_⟩
  exact (c2_peak_period_and_significance 1 (fun _ _ => 0) trivialFit
    { nu := [1], power := [1], P := [2 * Real.pi] } 0 trivialModel
    (by simp) rfl
    (fun j hj => by
      have hj1 : j = 0 := by
        have : j < 1 := by simpa using hj
        omega
      subst hj1
      norm_num)
    (by norm_num [stepFap])).1

/-- C4: the detection loop runs at most the caller-fixed number of iterations
(`for kpla in range(1)` in this program), hence it terminates on every input
(`runLoop` is total by structural recursion on the budget) and never adds more
Keplerian components than that bound. -/
theorem c4_detection_loop_iteration_bound :
    ∀ (thr : ℚ) (fapFn : ℚ → ℚ → ℚ) (fitF : AstrometricModel → List ℚ × ℚ)
      (oracle : ℕ → PeriodogramData) (fuel k : ℕ) (m : AstrometricModel),
      (runLoop thr fapFn fitF oracle fuel k m).keplerians.length ≤ m.keplerians.length + fuel
      ∧ (runLoop thr fapFn fitF oracle notebookMaxCompanions k m).keplerians.length
          ≤ m.keplerians.length + 1 := by
  intro thr fapFn fitF oracle fuel k m
  exact ⟨runLoop_keplerians_le thr fapFn fitF oracle fuel k m,
    runLoop_keplerians_le thr fapFn fitF oracle 1 k m⟩

/-- C9: the detection loop mutates only the deep-copied model; every part of
the original fitted single-star model — linear coefficients, jitter,
free-parameter list, basis vectors and Keplerian-component collection — is
unchanged afterwards, for every fit oracle and every periodogram output. -/
theorem c9_original_model_unchanged :
    ∀ (thr : ℚ) (fapFn : ℚ → ℚ → ℚ) (fitF : AstrometricModel → List ℚ × ℚ)
      (oracle : ℕ → PeriodogramData) (s : AstrometricModel),
      (runNotebookLoop thr fapFn fitF oracle (initState s)).single_star_model.linPar = s.linPar
      ∧ (runNotebookLoop thr fapFn fitF oracle (initState s)).single_star_model.jitter = s.jitter
      ∧ (runNotebookLoop thr fapFn fitF oracle (initState s)).single_star_model.fitParam = s.fitParam
      ∧ (runNotebookLoop thr fapFn fitF oracle (initState s)).single_star_model.keplerians = s.keplerians
      ∧ (runNotebookLoop thr fapFn fitF oracle (initState s)).single_star_model.lin = s.lin
      ∧ (runNotebookLoop thr fapFn fitF oracle (initState s)).single_star_model = s :=
  fun _ _ _ _ _ => ⟨rfl, rfl, rfl, rfl, rfl, rfl⟩

/-- C10: in the single-star model the `mura` basis vector equals, elementwise,
the epoch in years times the `ra` basis vector (sin ψ), the `mudec` basis
vector equals the epoch in years times the `dec` basis vector (cos ψ), and the
model's epoch axis is nevertheless supplied in days (365.25 times the epoch in
years) — so proper-motion coefficients multiply per-year regressors while the
time axis, and hence any fitted period, is in days. -/
theorem c10_proper_motion_basis_in_years :
    ∀ (t_year spsi cpsi plxFactor wObs : ℕ → ℚ) (k : ℕ),
      basisOf (mk_single_star_model t_year spsi cpsi plxFactor wObs) ("mura") k
          = t_year k * basisOf (mk_single_star_model t_year spsi cpsi plxFactor wObs) ("ra") k
      ∧ basisOf (mk_single_star_model t_year spsi cpsi plxFactor wObs) ("mudec") k
          = t_year k * basisOf (mk_single_star_model t_year spsi cpsi plxFactor wObs) ("dec") k
      ∧ (mk_single_star_model t_year spsi cpsi plxFactor wObs).t k = yearToDay * t_year k
      ∧ basisOf (mk_single_star_model t_year spsi cpsi plxFactor wObs) ("mura") k * yearToDay
          = (mk_single_star_model t_year spsi cpsi plxFactor wObs).t k
            * basisOf (mk_single_star_model t_year spsi cpsi plxFactor wObs) ("ra") k
      ∧ basisOf (mk_single_star_model t_year spsi cpsi plxFactor wObs) ("mudec") k * yearToDay
          = (mk_single_star_model t_year spsi cpsi plxFactor wObs).t k
            * basisOf (mk_single_star_model t_year spsi cpsi plxFactor wObs) ("dec") k := by
  intro t_year spsi cpsi plxFactor wObs k
  refine ⟨rfl, rfl, by show t_year k * yearToDay = yearToDay * t_year k; ring, ?_, ?_⟩
  · show (t_year k * spsi k) * yearToDay = (t_year k * yearToDay) * spsi k
    ring
  · show (t_year k * cpsi k) * yearToDay = (t_year k * yearToDay) * cpsi k
    ring

/-- C7: for every `a0` and every `parallax > 0` the conversion returns the
scaled physical semi-major axis `a0/parallax`, and for every `parallax ≤ 0` it
reports an Invalid Parameter error rather than returning a value. -/
theorem c7_angular_to_linear_requires_positive_parallax :
    ∀ a0 plx : ℚ,
      (0 < plx →
        convert_from_angular_to_linear a0 plx = Except.ok (a0 / plx * au_meter))
      ∧ (plx ≤ 0 →
        convert_from_angular_to_linear a0 plx = Except.error ("Invalid Parameter")) := by
  intro a0 plx
  constructor
  · intro h
    simp [convert_from_angular_to_linear, not_le.mpr h]
  · intro h
    simp [convert_from_angular_to_linear, h]

/-- Witness for C7 at `a0 = 3`, `parallax = 2`. -/
theorem c7_witness :
    (0 < (2 : ℚ))
    ∧ convert_from_angular_to_linear 3 2 = Except.ok (3 / 2 * au_meter) :=
  ⟨by norm_num, (c7_angular_to_linear_requires_positive_parallax 3 2).1 (by norm_num)⟩

/-- C8: for every peak power and every searched frequency bound, the
false-alarm probability returned by the extreme-value estimate lies in [0, 1],
whenever the single-trial tail probability is itself a probability. -/
theorem c8_fap_in_unit_interval :
    ∀ (p1 : ℚ → ℚ) (neff : ℚ → ℕ) (z numax : ℚ),
      (∀ x, 0 ≤ p1 x ∧ p1 x ≤ 1) →
      0 ≤ fapEstimate p1 neff z numax ∧ fapEstimate p1 neff z numax ≤ 1 := by
  intro p1 neff z numax h
  have h0 : 0 ≤ 1 - p1 z := by linarith [(h z).2]
  have h1 : 1 - p1 z ≤ 1 := by linarith [(h z).1]
  have hp0 : 0 ≤ (1 - p1 z) ^ neff numax := pow_nonneg h0 _
  have hp1 : (1 - p1 z) ^ neff numax ≤ 1 := pow_le_one₀ h0 h1
  exact ⟨by simp only [fapEstimate]; linarith, by simp only [fapEstimate]; linarith⟩

/-- Witness for C8 with a constant single-trial probability of 1/2 and two
effective frequencies. -/
theorem c8_witness :
    (∀ x : ℚ, 0 ≤ (fun _ : ℚ => (1 : ℚ) / 2) x ∧ (fun _ : ℚ => (1 : ℚ) / 2) x ≤ 1)
    ∧ 0 ≤ fapEstimate (fun _ => 1 / 2) (fun _ => 2) 5 7
    ∧ fapEstimate (fun _ => 1 / 2) (fun _ => 2) 5 7 ≤ 1 :=
  ⟨fun _ => by norm_num,
   c8_fap_in_unit_interval (fun _ => 1 / 2) (fun _ => 2) 5 7 (fun _ => by norm_num)⟩

/-- C3: the periodogram is evaluated at exactly 10000 uniformly spaced angular
frequencies, the first of which corresponds exactly to period `Pmax = 50000`
days and the last of which corresponds exactly to period `Pmin = 5` days. -/
theorem c3_frequency_grid :
    ∀ nu : ℕ → ℝ, isNotebookFrequencyGrid nu →
      Pmax = 50000
      ∧ Pmin = 5
      ∧ nfreq = 10000
      ∧ nu 0 = 2 * Real.pi / (Pmax : ℝ)
      ∧ 2 * Real.pi / nu 0 = (Pmax : ℝ)
      ∧ nu (nfreq - 1) = 2 * Real.pi / (Pmin : ℝ)
      ∧ 2 * Real.pi / nu (nfreq - 1) = (Pmin : ℝ)
      ∧ (∀ k, k + 1 < nfreq →
          nu (k + 1) - nu k
            = (2 * Real.pi / (Pmin : ℝ) - 2 * Real.pi / (Pmax : ℝ)) / ((nfreq : ℝ) - 1)) := by
  intro nu hgrid
  have hpi : (0 : ℝ) < 2 * Real.pi := by positivity
  have h0 : nu 0 = 2 * Real.pi / (Pmax : ℝ) := by
    have := hgrid 0 (by norm_num [nfreq])
    simpa using this
  have hlast : nu (nfreq - 1) = 2 * Real.pi / (Pmin : ℝ) := by
    have h9 := hgrid 9999 (by norm_num [nfreq])
    have hc : ((nfreq : ℝ) - 1) = 9999 := by norm_num [nfreq]
    have hidx : nfreq - 1 = 9999 := by norm_num [nfreq]
    rw [hc] at h9
    rw [hidx, h9]
    push_cast
    ring
  refine ⟨rfl, rfl, rfl, h0, ?_, hlast, ?_, ?_⟩
  · rw [h0]
    rw [div_div_eq_mul_div, mul_comm, mul_div_assoc, div_self (ne_of_gt hpi), mul_one]
  · rw [hlast]
    rw [div_div_eq_mul_div, mul_comm, mul_div_assoc, div_self (ne_of_gt hpi), mul_one]
  · intro k hk
    have hk1 := hgrid (k + 1) hk
    have hk0 := hgrid k (by omega)
    rw [hk1, hk0]
    push_cast
    ring

/-- Witness for C3: the grid function itself satisfies the grid property, and
its last point recovers the minimum period exactly. -/
theorem c3_witness :
    isNotebookFrequencyGrid
      (fun k => 2 * Real.pi / (Pmax : ℝ)
        + k * ((2 * Real.pi / (Pmin : ℝ) - 2 * Real.pi / (Pmax : ℝ)) / ((nfreq : ℝ) - 1)))
    ∧ 2 * Real.pi /
        (fun k : ℕ => 2 * Real.pi / (Pmax : ℝ)
          + k * ((2 * Real.pi / (Pmin : ℝ) - 2 * Real.pi / (Pmax : ℝ)) / ((nfreq : ℝ) - 1)))
          (nfreq - 1)
        = (Pmin : ℝ) :=
  ⟨fun _ _ => rfl,
   (c3_frequency_grid _ (fun _ _ => rfl)).2.2.2.2.2.2.1⟩

/-- C5 (modelled from the spec: kepmodel's iterative Kepler solver is not in
the repository source; per the spec it converges to a tight tolerance, e.g.
1e-10 rad): for every `e ∈ [0, 0.99]` and every mean anomaly `M`, any solver
output whose residual meets the spec's 1e-10 tolerance satisfies the claimed
strict 1e-9 bound; moreover Kepler's equation has exactly one solution there,
so the solver's task is well posed. -/
theorem c5_kepler_residual_bound :
    ∀ e M E : ℝ, 0 ≤ e → e ≤ 0.99 →
      |E - e * Real.sin E - M| ≤ 1e-10 →
      KeplerResidualWithin e M E 1e-9 ∧ ∃! E0, SolvesKepler e M E0 := by
  intro e M E he0 he1 hres
  constructor
  · unfold KeplerResidualWithin
    calc |E - e * Real.sin E - M| ≤ 1e-10 := hres
      _ < 1e-9 := by norm_num
  · have hmono : StrictMono (fun E0 : ℝ => E0 - e * Real.sin E0) := by
      apply strictMono_of_deriv_pos
      intro x
      have hd : HasDerivAt (fun E0 : ℝ => E0 - e * Real.sin E0) (1 - e * Real.cos x) x := by
        have h1 : HasDerivAt (fun E0 : ℝ => E0) 1 x := hasDerivAt_id x
        have h2 : HasDerivAt (fun E0 : ℝ => e * Real.sin E0) (e * Real.cos x) x :=
          (Real.hasDerivAt_sin x).const_mul e
        simpa using h1.sub h2
      rw [hd.deriv]
      have hcos : e * Real.cos x ≤ e * 1 :=
        mul_le_mul_of_nonneg_left (Real.cos_le_one x) he0
      linarith
    have hcont : ContinuousOn (fun E0 : ℝ => E0 - e * Real.sin E0) (Set.Icc (M - 2) (M + 2)) :=
      (continuous_id.sub (continuous_const.mul Real.continuous_sin)).continuousOn
    have hab : M - 2 ≤ M + 2 := by linarith
    have hmem : M ∈ Set.Icc ((fun E0 : ℝ => E0 - e * Real.sin E0) (M - 2))
        ((fun E0 : ℝ => E0 - e * Real.sin E0) (M + 2)) := by
      constructor
      · have hs : e * (-1) ≤ e * Real.sin (M - 2) :=
          mul_le_mul_of_nonneg_left (Real.neg_one_le_sin (M - 2)) he0
        simp only
        linarith
      · have hs : e * Real.sin (M + 2) ≤ e * 1 :=
          mul_le_mul_of_nonneg_left (Real.sin_le_one (M + 2)) he0
        simp only
        linarith
    obtain ⟨E0, _, hE0⟩ := intermediate_value_Icc hab hcont hmem
    exact ⟨E0, hE0, fun y hy => hmono.injective (hy.trans hE0.symm)⟩

/-- C6: for every a0 > 0, i ∈ (0, π) and all ω, Ω, converting the Thiele-Innes
coefficients (A, B, F, G) of those Campbell elements back to Campbell elements
and then to Thiele-Innes coefficients reproduces the original (A, B, F, G) —
exactly over the reals, hence in particular within any floating-point
tolerance. -/
theorem c6_thiele_innes_campbell_roundtrip :
    ∀ A B F G a0 inc ω Ω a0' inc' ω' Ω' : ℝ,
      0 < a0 → 0 < inc → inc < Real.pi →
      isThieleInnesOf A B F G a0 inc ω Ω →
      isCampbellOfThieleInnes A B F G a0' inc' ω' Ω' →
      isThieleInnesOf A B F G a0' inc' ω' Ω' := by
  intro A B F G a0 inc ω Ω a0' inc' ω' Ω' ha0 hi0 hiπ hTI hC
  obtain ⟨hA, hB, hF, hG⟩ := hTI
  obtain ⟨ha0', hinc', hω', hΩ'⟩ := hC
  have hci_lt : Real.cos inc < 1 := by
    have h1 : Real.cos inc < Real.cos 0 :=
      Real.strictAntiOn_cos ⟨le_refl 0, Real.pi_pos.le⟩ ⟨hi0.le, hiπ.le⟩ hi0
    simpa using h1
  have hci_gt : -1 < Real.cos inc := by
    have h1 : Real.cos Real.pi < Real.cos inc :=
      Real.strictAntiOn_cos ⟨hi0.le, hiπ.le⟩ ⟨Real.pi_pos.le, le_refl Real.pi⟩ hiπ
    simpa [Real.cos_pi] using h1
  set S : ℝ := a0 * (1 + Real.cos inc) / 2 with hSdef
  set R : ℝ := a0 * (1 - Real.cos inc) / 2 with hRdef
  have hSpos : 0 < S := by
    rw [hSdef]
    exact div_pos (mul_pos ha0 (by linarith)) two_pos
  have hRpos : 0 < R := by
    rw [hRdef]
    exact div_pos (mul_pos ha0 (by linarith)) two_pos
  have hu : (A + G) / 2 = S * Real.cos (ω + Ω) := by
    rw [hA, hG, Real.cos_add, hSdef]
    ring
  have hv : (B - F) / 2 = S * Real.sin (ω + Ω) := by
    rw [hB, hF, Real.sin_add, hSdef]
    ring
  have hp : (A - G) / 2 = R * Real.cos (Ω - ω) := by
    rw [hA, hG, Real.cos_sub, hRdef]
    ring
  have hq : (B + F) / 2 = R * Real.sin (Ω - ω) := by
    rw [hB, hF, Real.sin_sub, hRdef]
    ring
  have hsq1 : ((A + G) / 2) ^ 2 + ((B - F) / 2) ^ 2 = S ^ 2 := by
    rw [hu, hv]
    have h1 : Real.sin (ω + Ω) ^ 2 + Real.cos (ω + Ω) ^ 2 = 1 := Real.sin_sq_add_cos_sq _
    linear_combination (S ^ 2) * h1
  have hsq2 : ((A - G) / 2) ^ 2 + ((B + F) / 2) ^ 2 = R ^ 2 := by
    rw [hp, hq]
    have h1 : Real.sin (Ω - ω) ^ 2 + Real.cos (Ω - ω) ^ 2 = 1 := Real.sin_sq_add_cos_sq _
    linear_combination (R ^ 2) * h1
  have hs_eq : Real.sqrt (((A + G) / 2) ^ 2 + ((B - F) / 2) ^ 2) = S := by
    rw [hsq1, Real.sqrt_sq hSpos.le]
  have hr_eq : Real.sqrt (((A - G) / 2) ^ 2 + ((B + F) / 2) ^ 2) = R := by
    rw [hsq2, Real.sqrt_sq hRpos.le]
  rw [hs_eq, hr_eq] at ha0' hinc'
  have hSR : (0 : ℝ) < S + R := by linarith
  have hcos' : Real.cos inc' = (S - R) / (S + R) := by
    rw [hinc']
    refine Real.cos_arccos ?_ ?_
    · rw [le_div_iff₀ hSR]
      linarith
    · rw [div_le_one hSR]
      linarith
  set t1 : ℝ := Complex.arg ⟨(A + G) / 2, (B - F) / 2⟩ with ht1def
  set t2 : ℝ := Complex.arg ⟨(A - G) / 2, (B + F) / 2⟩ with ht2def
  have habs1 : Complex.abs ⟨(A + G) / 2, (B - F) / 2⟩ = S := by
    rw [Complex.abs_apply, Complex.normSq_mk]
    have hmm : (A + G) / 2 * ((A + G) / 2) + (B - F) / 2 * ((B - F) / 2)
        = ((A + G) / 2) ^ 2 + ((B - F) / 2) ^ 2 := by ring
    rw [hmm, hsq1, Real.sqrt_sq hSpos.le]
  have habs2 : Complex.abs ⟨(A - G) / 2, (B + F) / 2⟩ = R := by
    rw [Complex.abs_apply, Complex.normSq_mk]
    have hmm : (A - G) / 2 * ((A - G) / 2) + (B + F) / 2 * ((B + F) / 2)
        = ((A - G) / 2) ^ 2 + ((B + F) / 2) ^ 2 := by ring
    rw [hmm, hsq2, Real.sqrt_sq hRpos.le]
  have hz1 : (⟨(A + G) / 2, (B - F) / 2⟩ : ℂ) ≠ 0 := by
    intro h0
    rw [h0] at habs1
    simp only [map_zero] at habs1
    exact absurd habs1.symm (ne_of_gt hSpos)
  have hz2 : (⟨(A - G) / 2, (B + F) / 2⟩ : ℂ) ≠ 0 := by
    intro h0
    rw [h0] at habs2
    simp only [map_zero] at habs2
    exact absurd habs2.symm (ne_of_gt hRpos)
  have hcos1 : S * Real.cos t1 = (A + G) / 2 := by
    rw [ht1def, Complex.cos_arg hz1, habs1]
    show S * ((A + G) / 2 / S) = (A + G) / 2
    field_simp
    ring
  have hsin1 : S * Real.sin t1 = (B - F) / 2 := by
    rw [ht1def, Complex.sin_arg, habs1]
    show S * ((B - F) / 2 / S) = (B - F) / 2
    field_simp
    ring
  have hcos2 : R * Real.cos t2 = (A - G) / 2 := by
    rw [ht2def, Complex.cos_arg hz2, habs2]
    show R * ((A - G) / 2 / R) = (A - G) / 2
    field_simp
    ring
  have hsin2 : R * Real.sin t2 = (B + F) / 2 := by
    rw [ht2def, Complex.sin_arg, habs2]
    show R * ((B + F) / 2 / R) = (B + F) / 2
    field_simp
    ring
  have e1 : t1 = (t1 + t2) / 2 + (t1 - t2) / 2 := by ring
  have e2 : t2 = (t1 + t2) / 2 - (t1 - t2) / 2 := by ring
  rw [e1, Real.cos_add] at hcos1
  rw [e1, Real.sin_add] at hsin1
  rw [e2, Real.cos_sub] at hcos2
  rw [e2, Real.sin_sub] at hsin2
  have hc'SR : (S + R) * ((S - R) / (S + R)) = S - R := by field_simp
  refine ⟨?_, ?_, ?_, ?_⟩
  · rw [ha0', hcos', hω', hΩ']
    linear_combination (-1 : ℝ) * hcos1 - hcos2
      + (Real.sin ((t1 - t2) / 2) * Real.sin ((t1 + t2) / 2)) * hc'SR
  · rw [ha0', hcos', hω', hΩ']
    linear_combination (-1 : ℝ) * hsin1 - hsin2
      - (Real.sin ((t1 - t2) / 2) * Real.cos ((t1 + t2) / 2)) * hc'SR
  · rw [ha0', hcos', hω', hΩ']
    linear_combination hsin1 - hsin2
      + (Real.cos ((t1 - t2) / 2) * Real.sin ((t1 + t2) / 2)) * hc'SR
  · rw [ha0', hcos', hω', hΩ']
    linear_combination (-1 : ℝ) * hcos1 + hcos2
      - (Real.cos ((t1 - t2) / 2) * Real.cos ((t1 + t2) / 2)) * hc'SR

/-- Witness for C6 at a0 = 1, i = π/2, ω = Ω = 0, whose Thiele-Innes
coefficients are (1, 0, 0, 0) and whose converted Campbell elements are again
(1, π/2, 0, 0). -/
theorem c6_witness :
    ((0 : ℝ) < 1 ∧ (0 : ℝ) < Real.pi / 2 ∧ Real.pi / 2 < Real.pi)
    ∧ isThieleInnesOf 1 0 0 0 1 (Real.pi / 2) 0 0 := by
  have hhalf : Real.sqrt ((1 : ℝ) / 4) = 1 / 2 := by
    rw [show (1 / 4 : ℝ) = (1 / 2) ^ 2 by norm_num]
    exact Real.sqrt_sq (by norm_num)
  have harg : Complex.arg ⟨(1 : ℝ) / 2, 0⟩ = 0 :=
    Complex.arg_eq_zero_iff.mpr ⟨by norm_num, rfl⟩
  have hTI : isThieleInnesOf 1 0 0 0 1 (Real.pi / 2) 0 0 := by
    refine ⟨?_, ?_, ?_, ?_⟩ <;> simp
  have hC : isCampbellOfThieleInnes 1 0 0 0 1 (Real.pi / 2) 0 0 := by
    refine ⟨?_, ?_, ?_, ?_⟩
    · norm_num [hhalf]
    · norm_num [hhalf, Real.arccos_zero]
    · norm_num [harg]
    · norm_num [harg]
  have hpi2 : (0 : ℝ) < Real.pi / 2 := by positivity
  have hpi3 : Real.pi / 2 < Real.pi := by linarith [Real.pi_pos]
  exact ⟨⟨one_pos, hpi2, hpi3⟩,
    c6_thiele_innes_campbell_roundtrip 1 0 0 0 1 (Real.pi / 2) 0 0 1 (Real.pi / 2) 0 0
      one_pos hpi2 hpi3 hTI hC⟩

/-- Witness for C5 at `e = 0`, `M = 0`, `E = 0`. -/
theorem c5_witness :
    ((0 : ℝ) ≤ 0) ∧ ((0 : ℝ) ≤ 0.99) ∧ |(0 : ℝ) - 0 * Real.sin 0 - 0| ≤ 1e-10
    ∧ (KeplerResidualWithin 0 0 0 1e-9 ∧ ∃! E0, SolvesKepler 0 0 E0) :=
  ⟨le_refl 0, by norm_num, by norm_num,
   c5_kepler_residual_bound 0 0 0 (le_refl 0) (by norm_num) (by norm_num)⟩

end Notebook
